import Mathlib

/-!
Verification development for the Tox language implementation
(lexer keyword table, package loader renaming, static type checker and
tree-walking evaluator), shallowly embedded from the Go sources.

Modelling conventions:
* Go `int64` is embedded as `Int`; every arithmetic operation that can
  overflow is reduced modulo 2^64 into the signed range (`wrap64`).
* A Go runtime panic (integer division by zero, slice bounds out of
  range, comparison of uncomparable types, unhashable map keys) is the
  `Res.abort` outcome; exhaustion of the step budget is `Res.timeout`.
* Mutable environments (parent-linked scope frames) are embedded as a
  list of association-list frames, innermost first; the outermost
  (global) frame is the last entry.  Arrays, maps and struct instances
  are reference values: they live on an explicit heap indexed by
  allocation order, so in-place mutation and aliasing are preserved.
* Source line/column fields carry no semantic weight and are dropped.
-/

/-- Token kinds, from token/token.go. -/
inductive TokenType where
  | LET | FNC | LOG | LEN | INPUT | IF | ELIF | ELSE | WHILE | FOR | RETURN
  | LPAREN | RPAREN | LBRACE | RBRACE | LBRACKET | RBRACKET
  | IDENT | TYPE | ASSIGN_OP | STRING | INT | BOOL | FNCVOID
  | PLUS | MINUS | ASTERISK | SLASH | MODULUS | NIL | COMMA
  | EQ | NEQ | LT | LTE | GT | GTE | AND | OR | NOT
  | SEMICOLON | COLON | ILLEGAL | EOF
  deriving DecidableEq, Repr

/-- Kernel-computable character-level string utilities used in place
of the corresponding Go `strings` functions. -/
def strToLower (s : String) : String :=
  String.mk (s.data.map Char.toLower)

def strContainsChar (s : String) (c : Char) : Bool :=
  s.data.contains c

def strEndsWith (s suf : String) : Bool :=
  s.data.drop (s.data.length - suf.data.length) == suf.data

def strStartsWith (s pre : String) : Bool :=
  s.data.take pre.data.length == pre.data

def strTrim (s : String) : String :=
  String.mk
    (((s.data.dropWhile Char.isWhitespace).reverse.dropWhile
        Char.isWhitespace).reverse)

def strSplitDotsAux (acc : List Char) : List Char → List String
  | [] => [String.mk acc.reverse]
  | c :: rest =>
    if c = '.' then String.mk acc.reverse :: strSplitDotsAux [] rest
    else strSplitDotsAux (c :: acc) rest

/-- `strings.Split(s, ".")`. -/
def strSplitDots (s : String) : List String :=
  strSplitDotsAux [] s.data

def splitFirstDotAux (acc : List Char) : List Char → String × String
  | [] => (String.mk acc.reverse, "")
  | c :: rest =>
    if c = '.' then (String.mk acc.reverse, String.mk rest)
    else splitFirstDotAux (c :: acc) rest

/-- `strings.SplitN(s, ".", 2)`: the text before the first dot and the
rest (call sites guard on the dot being present). -/
def splitFirstDot (s : String) : String × String :=
  splitFirstDotAux [] s.data

/-- The case list of the lexer's keyword switch, from `lookupIdent`
(src/unnamed/part_003), applied to the lower-cased identifier text.
The `TYPE` cases are `string, int, bool, void, int[], string[],
bool[]` — the list does not contain `void[]`. -/
def lookupIdentKeyword (l : String) : TokenType :=
  if l = "let" then .LET
  else if l = "fnc" then .FNC
  else if l = "log" then .LOG
  else if l = "string" ∨ l = "int" ∨ l = "bool" ∨ l = "void" ∨
          l = "int[]" ∨ l = "string[]" ∨ l = "bool[]" then .TYPE
  else if l = "true" ∨ l = "false" then .BOOL
  else if l = "return" then .RETURN
  else if l = "nil" then .NIL
  else if l = "if" then .IF
  else if l = "elif" then .ELIF
  else if l = "else" then .ELSE
  else if l = "while" then .WHILE
  else if l = "for" then .FOR
  else if l = "len" then .LEN
  else .IDENT

/-- `lookupIdent`: the keyword table is consulted case-insensitively
(`switch strings.ToLower(ident)`). -/
def lookupIdent (ident : String) : TokenType :=
  lookupIdentKeyword (strToLower ident)

/-- Every identifier text the keyword switch recognises (all its case
labels, lower-case). -/
def toxKeywordTable : List String :=
  ["let", "fnc", "log", "string", "int", "bool", "void",
   "int[]", "string[]", "bool[]", "true", "false", "return", "nil",
   "if", "elif", "else", "while", "for", "len"]

/-- Expressions, from ast/ast.go (src/unnamed/part_004). -/
inductive Expr where
  | str (s : String)
  | int (n : Int)
  | bool (b : Bool)
  | ident (name : String)
  | nilLit
  | arr (elems : List Expr)
  | mapLit (keyType valueType : String) (pairs : List (Expr × Expr))
  | structLit (structName : String) (fields : List (String × Expr))
  | index (left idx : Expr)
  | slice (left : Expr) (start stop : Option Expr)
  | call (fn : Expr) (args : List Expr)
  | unary (op : TokenType) (right : Expr)
  | binary (op : TokenType) (left right : Expr)
  deriving Repr

/-- Statements, from ast/ast.go (src/unnamed/part_004).  `assign`
keeps both the flattened `Name` and the `Left` target expression,
exactly as `AssignmentStatement` does. -/
inductive Stmt where
  | letS (name ty : String) (value : Expr) (visibility : String)
  | fnc (name : String) (params paramTypes : List String)
        (body : List Stmt) (retType visibility receiverType : String)
  | logS (value : Expr)
  | ret (value : Option Expr)
  | ifS (cond : Expr) (body : List Stmt) (elifConds : List Expr)
        (elifBodies : List (List Stmt)) (elseBody : List Stmt)
  | assign (name : String) (left : Expr) (value : Expr)
  | whileS (cond : Expr) (body : List Stmt)
  | forS (init : Option Stmt) (cond : Expr) (post : Option Stmt)
         (body : List Stmt)
  | breakS
  | continueS
  | structS (name : String) (fields : List (String × String))
  | packageS (name : String)
  | importS (path : String)
  | exprS (e : Expr)
  | cimport (header : String)
  deriving Repr

/-- The payload of a function value: the fields of `ast.FunctionStatement`
that the evaluator consults after binding it into the environment. -/
structure FnStmt where
  name : String
  params : List String
  paramTypes : List String
  body : List Stmt
  retType : String
  visibility : String
  receiverType : String
  deriving Repr

/-- Runtime values.  Go stores `int64`, `string`, `bool`, `nil`,
`[]interface{}` (array), `map[interface{}]interface{}` (user map),
`map[string]interface{}` (struct instance) and `*ast.FunctionStatement`
in `interface{}`.  Reference values (array/map/struct) are heap
addresses; `vStr` also carries the evaluator's textual error results
(the Go code returns `fmt.Sprintf("Error: ...")` strings from
identifier resolution failures). -/
inductive Value where
  | vInt (n : Int)
  | vStr (s : String)
  | vBool (b : Bool)
  | vNil
  | vArrRef (addr : Nat)
  | vMapRef (addr : Nat)
  | vStructRef (addr : Nat)
  | vFunc (f : FnStmt)
  deriving Repr

/-- Heap objects backing the reference values. -/
inductive HObj where
  | arrO (elems : List Value)
  | mapO (pairs : List (Value × Value))
  | structO (fields : List (String × Value))
  deriving Repr

/-- One scope frame: Go's `map[string]interface{}`.  Insertion conses
to the front and lookup takes the first match, which realises the
map's overwrite-on-assign semantics. -/
abbrev Frame := List (String × Value)

/-- The scope chain, innermost frame first; the last frame is the
outermost (global) one.  Go links frames by `parent` pointers. -/
abbrev Env := List Frame

/-- Outcome of an evaluation step: a normal result, a Go runtime panic
(`abort`), or exhaustion of the step budget (`timeout`).  The fuel is a
modelling device only; the Go interpreter simply recurses. -/
inductive Res (α : Type) where
  | ok (a : α)
  | abort
  | timeout
  deriving Repr

def Res.bind {α β : Type} : Res α → (α → Res β) → Res β
  | .ok a, f => f a
  | .abort, _ => .abort
  | .timeout, _ => .timeout

instance : Monad Res where
  pure := Res.ok
  bind := Res.bind

/-- Frame lookup: Go map read (first match wins, see `Frame`). -/
def frameGet (f : Frame) (name : String) : Option Value :=
  match f with
  | [] => none
  | (k, v) :: rest => if k = name then some v else frameGet rest name

/-- Frame write: Go map assignment (overwrite). -/
def frameSet (f : Frame) (name : String) (v : Value) : Frame :=
  (name, v) :: f

/-- `Environment.Get`: look in the current frame, else in the parent. -/
def envGet (env : Env) (name : String) : Option Value :=
  match env with
  | [] => none
  | f :: rest =>
    match frameGet f name with
    | some v => some v
    | none => envGet rest name

/-- `Environment.Set`: write into the innermost frame. -/
def envSet (env : Env) (name : String) (v : Value) : Env :=
  match env with
  | [] => [frameSet [] name v]
  | f :: rest => frameSet f name v :: rest

/-- `Environment.SetExisting`: walk outward and overwrite the first
frame that already binds the name; `none` when no frame does. -/
def envSetExisting (env : Env) (name : String) (v : Value) : Option Env :=
  match env with
  | [] => none
  | f :: rest =>
    if (frameGet f name).isSome then some (frameSet f name v :: rest)
    else (envSetExisting rest name v).map (f :: ·)

/-- `getGlobalEnv`: follow parent pointers to the outermost frame. -/
def globalFrameOf (env : Env) : Frame :=
  match env with
  | [] => []
  | [f] => f
  | _ :: rest => globalFrameOf rest

/-- Replace the outermost frame (used to propagate the callee's global
mutations back to the caller: the callee's chain shares exactly the
global frame with the caller's chain). -/
def setGlobalFrame (env : Env) (g : Frame) : Env :=
  match env with
  | [] => [g]
  | [_] => [g]
  | f :: rest => f :: setGlobalFrame rest g

/-- Interpreter state: the scope chain, the heap of reference values,
everything printed so far (as raw values), and the stdin lines the
`input` built-in consumes (host boundary). -/
structure St where
  env : Env
  heap : List HObj
  out : List Value
  stdin : List String

def heapGet (heap : List HObj) (addr : Nat) : Option HObj :=
  heap.get? addr

def heapSet (heap : List HObj) (addr : Nat) (o : HObj) : List HObj :=
  heap.set addr o

/-- Allocate a fresh heap object, returning its address. -/
def heapAlloc (st : St) (o : HObj) : Nat × St :=
  (st.heap.length, { st with heap := st.heap ++ [o] })

/-- Reduce an integer into the signed 64-bit range, as Go's `int64`
arithmetic does on overflow. -/
def wrap64 (n : Int) : Int :=
  (n + 2 ^ 63) % 2 ^ 64 - 2 ^ 63

/-- `isTruthy` from the evaluator: a bool is itself, an int is truthy
iff nonzero, a string iff nonempty, `nil` is false, and any other
value (array/map/struct/function) is a non-nil interface, hence true. -/
def isTruthy (v : Value) : Bool :=
  match v with
  | .vBool b => b
  | .vInt n => n ≠ 0
  | .vStr s => s ≠ ""
  | .vNil => false
  | _ => true

/-- Whether a value is a reference (slice/map dynamic type in Go):
these are Go's uncomparable and unhashable interface contents. -/
def isRef (v : Value) : Bool :=
  match v with
  | .vArrRef _ | .vMapRef _ | .vStructRef _ => true
  | _ => false

/-- Structural equality of function payloads, standing in for Go's
pointer comparison of `*ast.FunctionStatement` (pointer identity has no
pure counterpart; distinct but syntactically identical declarations
compare equal here and unequal in Go). -/
def fnBeq (f g : FnStmt) : Bool :=
  reprStr f = reprStr g

/-- Go `==` on two `interface{}` values: different dynamic types give
`false`; equal uncomparable dynamic types (slice, map) panic; scalars
compare by value. -/
def valueEq (a b : Value) : Res Bool :=
  match a, b with
  | .vInt x, .vInt y => .ok (x = y)
  | .vStr x, .vStr y => .ok (x = y)
  | .vBool x, .vBool y => .ok (x = y)
  | .vNil, .vNil => .ok true
  | .vArrRef _, .vArrRef _ => .abort
  | .vMapRef _, .vMapRef _ => .abort
  | .vStructRef _, .vStructRef _ => .abort
  | .vFunc f, .vFunc g => .ok (fnBeq f g)
  | _, _ => .ok false

/-- Pure scalar equality used for association lookups inside maps whose
stored keys are already known hashable. -/
def scalarEq (a b : Value) : Bool :=
  match valueEq a b with
  | .ok r => r
  | _ => false

/-- Go map read `m[k]` on `map[interface{}]interface{}`: an unhashable
key (slice/map/struct dynamic type) panics; an absent key yields the
zero `interface{}`, i.e. `nil`. -/
def mapRead (pairs : List (Value × Value)) (k : Value) : Res Value :=
  if isRef k then .abort
  else
    match pairs.find? (fun p => scalarEq p.1 k) with
    | some p => .ok p.2
    | none => .ok .vNil

/-- Go map write `m[k] = v`: an unhashable key panics; otherwise the
binding for the key is replaced or added. -/
def mapWrite (pairs : List (Value × Value)) (k v : Value) :
    Res (List (Value × Value)) :=
  if isRef k then .abort
  else .ok ((k, v) :: pairs.filter (fun p => ¬ scalarEq p.1 k))

/-- Struct-instance field read (`map[string]interface{}`), first match. -/
def structGet (fields : List (String × Value)) (name : String) :
    Option Value :=
  match fields with
  | [] => none
  | (k, v) :: rest => if k = name then some v else structGet rest name

/-- Struct-instance field write (overwrite-on-assign). -/
def structSet (fields : List (String × Value)) (name : String) (v : Value) :
    List (String × Value) :=
  (name, v) :: fields

/-- Error text for a failed variable resolution (evaluator.go). -/
def errVarMsg (n : String) : String :=
  "Error: variable \x27" ++ n ++ "\x27 is not public or does not exist"

/-- Error text for a missing struct field (evaluator.go). -/
def errFieldMsg (f b : String) : String :=
  "Error: field \x27" ++ f ++ "\x27 not found in \x27" ++ b ++ "\x27"

/-- Error text for a non-struct base (evaluator.go). -/
def errNotStructMsg (n : String) : String :=
  "Error: variable \x27" ++ n ++ "\x27 is not a struct"

/-- Parameter binding of a call frame: Go iterates the parameter list
and binds `params[i] := args[i]` whenever `i < len(args)` — surplus
arguments are ignored and missing ones stay unbound, which is exactly
`zip`. -/
def bindParams (params : List String) (args : List Value) (f : Frame) :
    Frame :=
  (params.zip args).foldl (fun acc pa => frameSet acc pa.1 pa.2) f

/-- The fresh scope chain of a function invocation:
`NewEnclosedEnvironment(getGlobalEnv(env))` — a single new frame whose
parent is the outermost frame of the caller's chain. -/
def mkCallEnv (callerEnv : Env) (binds : Frame) : Env :=
  [binds, globalFrameOf callerEnv]

/-- Resume the caller after a call: the callee's chain shares exactly
the global frame with the caller's chain, so the caller observes the
callee's writes to the global frame and nothing else. -/
def resumeCaller (callerEnv calleeEnv : Env) : Env :=
  setGlobalFrame callerEnv (globalFrameOf calleeEnv)

/-- Binary operators, from the `BinaryExpression` case of `evalExpr`.
Both operands are already evaluated when this dispatch runs.  Division
and modulus by zero are Go runtime panics.  Any operand combination
without a matching case falls through to `return nil`. -/
def binOp (op : TokenType) (left right : Value) : Res Value :=
  match op with
  | .PLUS =>
    match left, right with
    | .vInt a, .vInt b => .ok (.vInt (wrap64 (a + b)))
    | .vStr a, .vStr b => .ok (.vStr (a ++ b))
    | _, _ => .ok .vNil
  | .MINUS =>
    match left, right with
    | .vInt a, .vInt b => .ok (.vInt (wrap64 (a - b)))
    | _, _ => .ok .vNil
  | .ASTERISK =>
    match left, right with
    | .vInt a, .vInt b => .ok (.vInt (wrap64 (a * b)))
    | _, _ => .ok .vNil
  | .SLASH =>
    match left, right with
    | .vInt a, .vInt b =>
      if b = 0 then .abort else .ok (.vInt (wrap64 (Int.tdiv a b)))
    | _, _ => .ok .vNil
  | .MODULUS =>
    match left, right with
    | .vInt a, .vInt b =>
      if b = 0 then .abort else .ok (.vInt (Int.tmod a b))
    | _, _ => .ok .vNil
  | .EQ => (valueEq left right).bind fun r => .ok (.vBool r)
  | .NEQ => (valueEq left right).bind fun r => .ok (.vBool (¬ r))
  | .LT =>
    match left, right with
    | .vInt a, .vInt b => .ok (.vBool (a < b))
    | _, _ => .ok .vNil
  | .LTE =>
    match left, right with
    | .vInt a, .vInt b => .ok (.vBool (a ≤ b))
    | _, _ => .ok .vNil
  | .GT =>
    match left, right with
    | .vInt a, .vInt b => .ok (.vBool (a > b))
    | _, _ => .ok .vNil
  | .GTE =>
    match left, right with
    | .vInt a, .vInt b => .ok (.vBool (a ≥ b))
    | _, _ => .ok .vNil
  | .AND => .ok (.vBool (isTruthy left && isTruthy right))
  | .OR => .ok (.vBool (isTruthy left || isTruthy right))
  | .NOT => .ok (.vBool (¬ isTruthy right))
  | _ => .ok .vNil

/-- The `IndexExpression` case of `evalExpr`, after both sub-expressions
are evaluated: arrays return the element for an in-range int index and
`nil` otherwise; struct instances (`map[string]interface{}`) return the
field or `nil`; user maps read with the evaluated key (panicking on
unhashable keys, as Go does); anything else is `nil`. -/
def indexValue (heap : List HObj) (coll idx : Value) : Res Value :=
  match coll with
  | .vArrRef a =>
    match heapGet heap a with
    | some (.arrO elems) =>
      match idx with
      | .vInt n =>
        if 0 ≤ n ∧ n < (elems.length : Int) then
          .ok (elems.getD n.toNat .vNil)
        else .ok .vNil
      | _ => .ok .vNil
    | _ => .ok .vNil
  | .vStructRef a =>
    match heapGet heap a with
    | some (.structO fs) =>
      match idx with
      | .vStr k => .ok ((structGet fs k).getD .vNil)
      | _ => .ok .vNil
    | _ => .ok .vNil
  | .vMapRef a =>
    match heapGet heap a with
    | some (.mapO ps) => mapRead ps idx
    | _ => .ok .vNil
  | _ => .ok .vNil

/-- The Go slice primitive `s[i:j]` on a backing list of length `n`:
legal when `0 ≤ i ≤ j ≤ n`, otherwise a runtime panic (`slice bounds
out of range`). -/
def goSlice (elems : List Value) (i j : Int) : Res (List Value) :=
  if 0 ≤ i ∧ i ≤ j ∧ j ≤ (elems.length : Int) then
    .ok ((elems.drop i.toNat).take (j - i).toNat)
  else .abort

/-- Build a user map from evaluated key/value pairs, inserting each in
turn (`m[key] = val` — which panics on unhashable keys). -/
def mapFromPairs (pvs : List (Value × Value)) :
    Res (List (Value × Value)) :=
  match pvs with
  | [] => .ok []
  | (k, v) :: rest =>
    (mapFromPairs rest).bind fun m => mapWrite m k v

/-- Build a struct instance from evaluated fields, then stamp the
reserved `_struct` slot with the type name. -/
def mkStructObj (structName : String) (fvs : List (String × Value)) :
    List (String × Value) :=
  structSet (fvs.foldl (fun acc kv => structSet acc kv.1 kv.2) [])
    "_struct" (.vStr structName)

/-- `fmt.Sprint` of a runtime value, bounded by a recursion depth (the
interpolation call sites pass a depth exceeding the heap size; on the
cyclic structures where this truncates, Go's fmt does not terminate
either).  Composite formatting and function-pointer formatting are
host-boundary details. -/
def sprintVal (heap : List HObj) : Nat → Value → String
  | 0, _ => ""
  | _ + 1, .vInt n => toString n
  | _ + 1, .vStr s => s
  | _ + 1, .vBool b => if b then "true" else "false"
  | _ + 1, .vNil => "<nil>"
  | _ + 1, .vFunc _ => "&FunctionStatement"
  | d + 1, .vArrRef a =>
    match heapGet heap a with
    | some (.arrO elems) =>
      "[" ++ String.intercalate " " (elems.map (sprintVal heap d)) ++ "]"
    | _ => ""
  | d + 1, .vMapRef a =>
    match heapGet heap a with
    | some (.mapO ps) =>
      "map[" ++ String.intercalate " "
        (ps.map fun p => sprintVal heap d p.1 ++ ":" ++ sprintVal heap d p.2)
        ++ "]"
    | _ => ""
  | d + 1, .vStructRef a =>
    match heapGet heap a with
    | some (.structO fs) =>
      "map[" ++ String.intercalate " "
        (fs.map fun p => p.1 ++ ":" ++ sprintVal heap d p.2) ++ "]"
    | _ => ""

/-- Maximal run of characters other than `%` and `>` (the regex class
`[^%>]+` is greedy and, since `%` is excluded from the class, no
backtracking can succeed: a match is exactly a maximal such run
followed by the literal `%>`). -/
def interpRun (cs : List Char) : List Char × List Char :=
  match cs with
  | [] => ([], [])
  | c :: rest =>
    if c = '%' ∨ c = '>' then ([], c :: rest)
    else
      let (r, t) := interpRun rest
      (c :: r, t)

/-- Attempt to read the interior of an interpolation fragment right
after `<%`: a nonempty `[^%>]+` run closed by `%>`. -/
def interpTake (cs : List Char) : Option (List Char × List Char) :=
  match interpRun cs with
  | (inner, '%' :: '>' :: rest) =>
    if inner.isEmpty then none else some (inner, rest)
  | _ => none

/-- Left-to-right, non-overlapping scan of `<%([^%>]+)%>` fragments, as
`regexp.ReplaceAllStringFunc` performs: `resolve` returns the
replacement text, or `none` to leave the fragment unchanged.  The
budget strictly exceeds the character count at the call site; every
iteration consumes at least one character. -/
def interpScan (resolve : String → Option String) :
    Nat → List Char → List Char
  | 0, cs => cs
  | fuel + 1, cs =>
    match cs with
    | [] => []
    | '<' :: '%' :: rest =>
      match interpTake rest with
      | some (inner, rest2) =>
        (match resolve (String.mk inner) with
         | some repl => repl.data ++ interpScan resolve fuel rest2
         | none =>
           '<' :: '%' :: (inner ++ '%' :: '>' :: interpScan resolve fuel rest2))
      | none => '<' :: interpScan resolve fuel ('%' :: rest)
    | c :: rest => c :: interpScan resolve fuel rest

/-- Resolution of one interpolation fragment (`interpolateString`):
trim, then either a plain identifier lookup or a dot-separated struct
field traversal; any failure leaves the fragment unchanged. -/
def resolveInterp (env : Env) (heap : List HObj) (inner : String) :
    Option String :=
  let e := strTrim inner
  if strContainsChar e '.' then
    match strSplitDots e with
    | [] => none
    | p0 :: restParts =>
      match envGet env p0 with
      | none => none
      | some v0 =>
        let rec walk (v : Value) (parts : List String) : Option Value :=
          match parts with
          | [] => some v
          | fld :: more =>
            match v with
            | .vStructRef a =>
              match heapGet heap a with
              | some (.structO fs) =>
                match structGet fs fld with
                | some v2 => walk v2 more
                | none => none
              | _ => none
            | _ => none
        (walk v0 restParts).map (sprintVal heap (heap.length + 1))
  else
    match envGet env e with
    | some v => some (sprintVal heap (heap.length + 1) v)
    | none => none

/-- `interpolateString`: replace every `<%EXPR%>` fragment of a string
literal with the printed form of the resolved value, at every
evaluation of the literal. -/
def interpolateString (s : String) (env : Env) (heap : List HObj) :
    String :=
  String.mk
    (interpScan (resolveInterp env heap) (s.data.length + 1) s.data)

/-- Control-flow signals returned by statement evaluation
(`breakSignal{}`, `continueSignal{}`, or the `nil` a normal completion
returns). -/
inductive Signal where
  | none
  | brk
  | cont
  deriving DecidableEq, Repr

/-- The host's built-in registry: a partial map from qualified names to
implementations over evaluated arguments.  Per the spec the set of
names is an input to the core, not part of it, so the whole evaluator
is parameterised over it (host side effects of built-ins are outside
the embedding). -/
abbrev BuiltinReg := String → Option (List Value → Value)

/-- One fuel level of the mutually recursive evaluator: the components
are `evalExpr`, argument-list evaluation, map-pair and struct-field
evaluation, `Eval` on one statement and on a list, the elif scan of an
if statement, the `while` and `for` loop drivers, and
`evalFunctionBody`. -/
structure Interp where
  exprF : Expr → St → Res (Value × St)
  exprListF : List Expr → St → Res (List Value × St)
  pairsF : List (Expr × Expr) → St → Res (List (Value × Value) × St)
  fieldsF : List (String × Expr) → St → Res (List (String × Value) × St)
  stmtF : Stmt → St → Res (Signal × St)
  stmtsF : List Stmt → St → Res (Signal × St)
  elifsF : List Expr → List (List Stmt) → St → Res (Bool × St)
  whileF : Expr → List Stmt → St → Res St
  forF : Expr → Option Stmt → List Stmt → St → Res St
  bodyF : List Stmt → St → Res (Value × St)

/-- The out-of-fuel interpreter. -/
def interpBase : Interp where
  exprF := fun _ _ => .timeout
  exprListF := fun _ _ => .timeout
  pairsF := fun _ _ => .timeout
  fieldsF := fun _ _ => .timeout
  stmtF := fun _ _ => .timeout
  stmtsF := fun _ _ => .timeout
  elifsF := fun _ _ _ => .timeout
  whileF := fun _ _ _ => .timeout
  forF := fun _ _ _ _ => .timeout
  bodyF := fun _ _ => .timeout

/-- The `Identifier` case of `evalExpr`: the full name first (accepted
only when bound to a non-nil value), then — for dotted names — a
struct-field access through the first dot, otherwise one of the
evaluator's textual error values. -/
def identLookup (name : String) (env : Env) (heap : List HObj) : Value :=
  match envGet env name with
  | some .vNil => identDotted name env heap
  | some v => v
  | none => identDotted name env heap
where
  identDotted (name : String) (env : Env) (heap : List HObj) : Value :=
    if strContainsChar name '.' then
      let (baseName, fieldName) := splitFirstDot name
      match envGet env baseName with
      | none => .vStr (errVarMsg baseName)
      | some .vNil => .vStr (errVarMsg baseName)
      | some (.vStructRef a) =>
        match heapGet heap a with
        | some (.structO fs) =>
          match structGet fs fieldName with
          | some fv => fv
          | none => .vStr (errFieldMsg fieldName baseName)
        | _ => .vStr (errNotStructMsg baseName)
      | some _ => .vStr (errNotStructMsg baseName)
    else .vStr (errVarMsg name)

/-- Consume one stdin line for the `input` built-in (host boundary:
`bufio.Reader.ReadString` with the trailing newline trimmed; at EOF Go
yields the empty string). -/
def inputRead (st : St) : Value × St :=
  match st.stdin with
  | h :: t => (.vStr h, { st with stdin := t })
  | [] => (.vStr "", st)

/-- One step of the evaluator: every construct of `Eval`, `evalExpr`
and `evalFunctionBody` (evaluator/evaluator.go), with all recursive
calls delegated to the previous fuel level `prev`. -/
def interpStep (B : BuiltinReg) (prev : Interp) : Interp where
  exprF := fun e st =>
    match e with
    | .str s => .ok (.vStr (interpolateString s st.env st.heap), st)
    | .int n => .ok (.vInt n, st)
    | .bool b => .ok (.vBool b, st)
    | .ident name => .ok (identLookup name st.env st.heap, st)
    | .nilLit => .ok (.vNil, st)
      -- evalExpr has no NilLiteral case; the switch default returns nil.
    | .binary op l r =>
      (prev.exprF l st).bind fun (lv, st1) =>
        (prev.exprF r st1).bind fun (rv, st2) =>
          (binOp op lv rv).bind fun v => .ok (v, st2)
    | .unary op r =>
      (prev.exprF r st).bind fun (rv, st1) =>
        match op with
        | .MINUS =>
          match rv with
          | .vInt n => .ok (.vInt (wrap64 (-n)), st1)
          | _ => .ok (.vNil, st1)
        | .NOT => .ok (.vBool (¬ isTruthy rv), st1)
        | _ => .ok (.vNil, st1)
    | .arr elems =>
      (prev.exprListF elems st).bind fun (vs, st1) =>
        let (a, st2) := heapAlloc st1 (.arrO vs)
        .ok (.vArrRef a, st2)
    | .index l i =>
      (prev.exprF l st).bind fun (lv, st1) =>
        (prev.exprF i st1).bind fun (iv, st2) =>
          (indexValue st2.heap lv iv).bind fun v => .ok (v, st2)
    | .slice l s e =>
      (prev.exprF l st).bind fun (lv, st1) =>
        match lv with
        | .vArrRef a =>
          match heapGet st1.heap a with
          | some (.arrO elems) =>
            -- var start, end int64 (zero values); a non-int bound
            -- leaves the zero in place.
            (show Res (Int × St) from
              match s with
              | none => .ok ((0 : Int), st1)
              | some se =>
                (prev.exprF se st1).bind fun (sv, st2) =>
                  match sv with
                  | .vInt n => .ok (n, st2)
                  | _ => .ok ((0 : Int), st2)).bind fun (startv, st2) =>
            (show Res (Int × St) from
              match e with
              | none => .ok ((elems.length : Int), st2)
              | some ee =>
                (prev.exprF ee st2).bind fun (ev, st3) =>
                  match ev with
                  | .vInt n => .ok (n, st3)
                  | _ => .ok ((0 : Int), st3)).bind fun (endv, st3) =>
            let startv := if startv < 0 then 0 else startv
            let endv := if endv > (elems.length : Int) then (elems.length : Int) else endv
            let startv := if startv > endv then endv else startv
            (goSlice elems startv endv).bind fun sub =>
              let (a2, st4) := heapAlloc st3 (.arrO sub)
              -- Go returns a sub-slice sharing the backing array; the
              -- embedding copies, which only aliasing mutations could
              -- distinguish.
              .ok (.vArrRef a2, st4)
          | _ => .ok (.vNil, st1)
        | _ => .ok (.vNil, st1)
    | .structLit sname fields =>
      (prev.fieldsF fields st).bind fun (fvs, st1) =>
        let (a, st2) := heapAlloc st1 (.structO (mkStructObj sname fvs))
        .ok (.vStructRef a, st2)
    | .mapLit _ _ pairs =>
      (prev.pairsF pairs st).bind fun (pvs, st1) =>
        (mapFromPairs pvs).bind fun m =>
          let (a, st2) := heapAlloc st1 (.mapO m)
          .ok (.vMapRef a, st2)
    | .call fnE args =>
      match fnE with
      | .ident name =>
        match B name with
        | some bfn =>
          (prev.exprListF args st).bind fun (argVs, st1) =>
            .ok (bfn argVs, st1)
        | none =>
          -- Method call support: only when the base resolves to a
          -- struct instance whose `_struct` type has the method.
          let methodHit : Option (FnStmt × Value) :=
            if strContainsChar name '.' then
              let (baseName, methodName) := splitFirstDot name
              match envGet st.env baseName with
              | some (.vStructRef a) =>
                let structType :=
                  match heapGet st.heap a with
                  | some (.structO fs) =>
                    match structGet fs "_struct" with
                    | some (.vStr t) => t
                    | _ => ""
                  | _ => ""
                match envGet st.env (structType ++ "." ++ methodName) with
                | some (.vFunc f) => some (f, .vStructRef a)
                | _ => none
              | _ => none
            else none
          match methodHit with
          | some (f, recv) =>
            (prev.exprListF args st).bind fun (argVs, st1) =>
              let callSt : St :=
                { st1 with
                  env := mkCallEnv st1.env
                    (bindParams f.params (recv :: argVs) [("this", recv)]) }
              (prev.bodyF f.body callSt).bind fun (v, st2) =>
                .ok (v, { st2 with env := resumeCaller st1.env st2.env })
          | none =>
            if name = "len" ∧ args.length = 1 then
              (prev.exprF (args.headD .nilLit) st).bind fun (av, st1) =>
                match av with
                | .vArrRef a =>
                  match heapGet st1.heap a with
                  | some (.arrO elems) => .ok (.vInt elems.length, st1)
                  | _ => .ok (.vInt 0, st1)
                | _ => .ok (.vInt 0, st1)
            else if name = "input" ∧ args.length ≤ 1 then
              match args with
              | [p] =>
                (prev.exprF p st).bind fun (pv, st1) =>
                  match pv with
                  | .vStr s =>
                    .ok (inputRead { st1 with out := st1.out ++ [.vStr s] })
                  | _ => .ok (inputRead st1)
              | _ => .ok (inputRead st)
            else
              match envGet st.env name with
              | some (.vFunc f) =>
                (prev.exprListF args st).bind fun (argVs, st1) =>
                  let callSt : St :=
                    { st1 with
                      env := mkCallEnv st1.env (bindParams f.params argVs []) }
                  (prev.bodyF f.body callSt).bind fun (v, st2) =>
                    .ok (v, { st2 with env := resumeCaller st1.env st2.env })
              | _ => .ok (.vNil, st)
      | _ => .ok (.vNil, st)
  exprListF := fun es st =>
    match es with
    | [] => .ok ([], st)
    | e :: rest =>
      (prev.exprF e st).bind fun (v, st1) =>
        (prev.exprListF rest st1).bind fun (vs, st2) =>
          .ok (v :: vs, st2)
  pairsF := fun ps st =>
    match ps with
    | [] => .ok ([], st)
    | (k, v) :: rest =>
      (prev.exprF k st).bind fun (kv, st1) =>
        (prev.exprF v st1).bind fun (vv, st2) =>
          (prev.pairsF rest st2).bind fun (pvs, st3) =>
            .ok ((kv, vv) :: pvs, st3)
  fieldsF := fun fs st =>
    match fs with
    | [] => .ok ([], st)
    | (k, fe) :: rest =>
      (prev.exprF fe st).bind fun (fv, st1) =>
        (prev.fieldsF rest st1).bind fun (fvs, st2) =>
          .ok ((k, fv) :: fvs, st2)
  stmtF := fun s st =>
    match s with
    | .letS name _ value _ =>
      (prev.exprF value st).bind fun (v, st1) =>
        .ok (.none, { st1 with env := envSet st1.env name v })
    | .fnc n ps pts body rt vis rcv =>
      .ok (.none,
        { st with env := envSet st.env n (.vFunc ⟨n, ps, pts, body, rt, vis, rcv⟩) })
    | .logS value =>
      (prev.exprF value st).bind fun (v, st1) =>
        .ok (.none, { st1 with out := st1.out ++ [v] })
    | .exprS e =>
      (prev.exprF e st).bind fun (_, st1) => .ok (.none, st1)
    | .ifS cond body elifConds elifBodies elseBody =>
      (prev.exprF cond st).bind fun (cv, st1) =>
        if isTruthy cv then
          -- The Go code discards the result of Eval(stmt.IfBody, env):
          -- a break/continue signal from the body is swallowed here.
          (prev.stmtsF body st1).bind fun (_, st2) => .ok (.none, st2)
        else
          (prev.elifsF elifConds elifBodies st1).bind fun (handled, st2) =>
            if handled then .ok (.none, st2)
            else if elseBody.length > 0 then
              (prev.stmtsF elseBody st2).bind fun (_, st3) => .ok (.none, st3)
            else .ok (.none, st2)
    | .assign _ left value =>
      match left with
      | .ident tname =>
        if strContainsChar tname '.' then
          -- Field assignment u.name >> v
          let (baseName, fieldName) := splitFirstDot tname
          match envGet st.env baseName with
          | none =>
            .ok (.none, { st with out := st.out ++ [.vStr (errVarMsg baseName)] })
          | some .vNil =>
            .ok (.none, { st with out := st.out ++ [.vStr (errVarMsg baseName)] })
          | some (.vStructRef a) =>
            (prev.exprF value st).bind fun (v, st1) =>
              match heapGet st1.heap a with
              | some (.structO fs) =>
                .ok (.none,
                  { st1 with
                    heap := heapSet st1.heap a (.structO (structSet fs fieldName v)),
                    env := envSet st1.env baseName (.vStructRef a) })
              | _ => .ok (.none, st1)
          | some _ =>
            .ok (.none, { st with out := st.out ++ [.vStr (errNotStructMsg baseName)] })
        else
          -- Plain identifier target
          (prev.exprF value st).bind fun (v, st1) =>
            match envSetExisting st1.env tname v with
            | some env2 => .ok (.none, { st1 with env := env2 })
            | none => .ok (.none, { st1 with env := envSet st1.env tname v })
      | .index l i =>
        (prev.exprF l st).bind fun (collv, st1) =>
          (prev.exprF i st1).bind fun (iv, st2) =>
            (prev.exprF value st2).bind fun (v, st3) =>
              -- Array mutation branch (out-of-bounds or wrong index
              -- type: silently nothing).
              let st4 :=
                match collv with
                | .vArrRef a =>
                  match heapGet st3.heap a with
                  | some (.arrO elems) =>
                    match iv with
                    | .vInt n =>
                      if 0 ≤ n ∧ n < (elems.length : Int) then
                        { st3 with heap := heapSet st3.heap a (.arrO (elems.set n.toNat v)) }
                      else st3
                    | _ => st3
                  | _ => st3
                | _ => st3
              -- Map mutation branch (a second independent `if`).
              match collv with
              | .vMapRef a =>
                match heapGet st4.heap a with
                | some (.mapO ps) =>
                  (mapWrite ps iv v).bind fun ps2 =>
                    .ok (.none, { st4 with heap := heapSet st4.heap a (.mapO ps2) })
                | _ => .ok (.none, st4)
              | _ => .ok (.none, st4)
      | _ => .ok (.none, st)
    | .breakS => .ok (.brk, st)
    | .continueS => .ok (.cont, st)
    | .whileS cond body =>
      (prev.whileF cond body st).bind fun st1 => .ok (.none, st1)
    | .forS init cond post body =>
      let forSt : St := { st with env := ([] : Frame) :: st.env }
      (match init with
       | some i => (prev.stmtsF [i] forSt).bind fun (_, s1) => .ok s1
       | none => .ok forSt).bind fun st1 =>
        (prev.forF cond post body st1).bind fun st2 =>
          .ok (.none, { st2 with env := st2.env.tail })
    | .ret _ => .ok (.none, st)
      -- Eval has no ReturnStatement case: a return statement reached
      -- through Eval (e.g. nested in an if body) does nothing at all.
    | .structS _ _ => .ok (.none, st)
    | .packageS _ => .ok (.none, st)
    | .importS _ => .ok (.none, st)
    | .cimport h =>
      .ok (.none,
        { st with out := st.out ++ [.vStr ("[CIMPORT] Would import C header: " ++ h)] })
  stmtsF := fun ss st =>
    match ss with
    | [] => .ok (.none, st)
    | s :: rest =>
      (prev.stmtF s st).bind fun (sig, st1) =>
        match sig with
        | .brk => .ok (.brk, st1)
        | .cont => .ok (.cont, st1)
        | .none => prev.stmtsF rest st1
  elifsF := fun conds bodies st =>
    match conds with
    | [] => .ok (false, st)
    | c :: cs =>
      (prev.exprF c st).bind fun (cv, st1) =>
        if isTruthy cv then
          match bodies with
          | b :: _ =>
            -- Result of Eval(stmt.ElifBodies[i], env) is discarded too.
            (prev.stmtsF b st1).bind fun (_, st2) => .ok (true, st2)
          | [] => .abort  -- ElifBodies[i]: index out of range panics
        else prev.elifsF cs bodies.tail st1
  whileF := fun cond body st =>
    (prev.exprF cond st).bind fun (cv, st1) =>
      if isTruthy cv then
        (prev.stmtsF body st1).bind fun (sig, st2) =>
          match sig with
          | .brk => .ok st2
          | _ => prev.whileF cond body st2
      else .ok st1
  forF := fun cond post body st =>
    (prev.exprF cond st).bind fun (cv, st1) =>
      if isTruthy cv then
        (prev.stmtsF body st1).bind fun (sig, st2) =>
          match sig with
          | .brk => .ok st2
          | _ =>
            -- Both the continue branch and normal completion run the
            -- post statement, then iterate.
            (match post with
             | some p => (prev.stmtsF [p] st2).bind fun (_, s3) => .ok s3
             | none => .ok st2).bind fun st3 =>
              prev.forF cond post body st3
      else .ok st1
  bodyF := fun ss st =>
    match ss with
    | [] => .ok (.vNil, st)
    | .ret v :: _ =>
      -- evalFunctionBody intercepts only a top-level ReturnStatement.
      (match v with
       | some e => prev.exprF e st
       | none => .ok (.vNil, st))
    | s :: rest =>
      (prev.stmtsF [s] st).bind fun (_, st1) =>
        prev.bodyF rest st1

/-- The fueled interpreter: `interp B fuel` gives every evaluator entry
point a budget of `fuel` recursion steps. -/
def interp (B : BuiltinReg) : Nat → Interp
  | 0 => interpBase
  | fuel + 1 => interpStep B (interp B fuel)

def evalExprF (B : BuiltinReg) (fuel : Nat) : Expr → St → Res (Value × St) :=
  (interp B fuel).exprF

def evalStmt (B : BuiltinReg) (fuel : Nat) : Stmt → St → Res (Signal × St) :=
  (interp B fuel).stmtF

def evalStmts (B : BuiltinReg) (fuel : Nat) : List Stmt → St → Res (Signal × St) :=
  (interp B fuel).stmtsF

def evalFunctionBody (B : BuiltinReg) (fuel : Nat) :
    List Stmt → St → Res (Value × St) :=
  (interp B fuel).bodyF

/-- An empty built-in registry (no `go.*` names installed): used to run
concrete programs that call no host built-ins. -/
def emptyReg : BuiltinReg := fun _ => none

/-- The initial interpreter state: one (global) frame, empty heap,
nothing printed, no stdin. -/
def initSt : St := { env := [([] : Frame)], heap := [], out := [], stdin := [] }

/-- The run harness from cmd/tox/main.go: evaluate all top-level
statements into a fresh global environment, then, when `main` is bound
to a function, evaluate its body in a fresh frame enclosed over the
global one (note: via `Eval`, not `evalFunctionBody`). -/
def runMain (B : BuiltinReg) (fuel : Nat) (stmts : List Stmt) : Res St :=
  (evalStmts B fuel stmts initSt).bind fun (_, st1) =>
    match envGet st1.env "main" with
    | some (.vFunc f) =>
      (evalStmts B fuel f.body { st1 with env := ([] : Frame) :: st1.env }).bind
        fun (_, st2) => .ok st2
    | _ => .ok st1

/-- The import-splicing fragment of `loadAndParseFile`
(cmd/tox/main.go, the loop over `importedStmts`): every
`FunctionStatement` is emitted twice — once with its name rewritten to
`MODULE.NAME` and once unchanged — and every other statement is copied
through unchanged.  The Go loop consults no visibility field. -/
def prefixImported (moduleName : String) (stmts : List Stmt) : List Stmt :=
  match stmts with
  | [] => []
  | .fnc n ps pts body rt vis rcv :: rest =>
    .fnc (moduleName ++ "." ++ n) ps pts body rt vis rcv ::
      .fnc n ps pts body rt vis rcv :: prefixImported moduleName rest
  | s :: rest => s :: prefixImported moduleName rest

/-- Whether a statement is a function declaration. -/
def isFnc (s : Stmt) : Bool :=
  match s with
  | .fnc _ _ _ _ _ _ _ => true
  | _ => false

/-- The type checker's registry of built-in return types
(typechecker.go `GoBuiltins`). -/
def goBuiltinsTC : List (String × String) :=
  [("go.println", "void"), ("go.printf", "void"), ("go.time.now", "string"),
   ("go.time.sleep", "void"), ("go.file.open", "int"), ("go.file.close", "void"),
   ("go.file.read", "string"), ("go.file.write", "bool"), ("go.file.create", "int"),
   ("go.file.remove", "bool"), ("go.dir.create", "bool"), ("go.dir.remove", "bool"),
   ("go.dir.removeAll", "bool"), ("go.path.exists", "bool"),
   ("go.file.stat", "map[string]any"), ("go.file.readline", "string"),
   ("go.strings.split", "string[]"), ("go.strings.trim", "string"),
   ("go.strings.toLower", "string"), ("go.strings.toUpper", "string"),
   ("go.bytes.make", "int[]"), ("go.bytes.copy", "int"), ("go.bytes.cap", "int")]

/-- First-match association lookup (Go map read over the threaded
tables, most recent registration first). -/
def alookup {α : Type} (l : List (String × α)) (k : String) : Option α :=
  match l with
  | [] => none
  | (k2, v) :: rest => if k2 = k then some v else alookup rest k

/-- Association overwrite (Go map assignment). -/
def aset {α : Type} (l : List (String × α)) (k : String) (v : α) :
    List (String × α) :=
  (k, v) :: l

abbrev FT := List (String × String)
abbrev FD := List (String × FnStmt)
abbrev VT := List (String × String)
abbrev SD := List (String × List (String × String))

/-- `len(t) > 2 && t[len(t)-2:] == "[]"`, the strict array-type test
used by `inferExprType` and the `any`/`any[]` rules. -/
def isArrType (t : String) : Bool :=
  t.length > 2 ∧ strEndsWith t "[]"

/-- `strings.Index(t, "]")`. -/
def strIndexOfChar (s : String) (c : Char) : Option Nat :=
  s.data.findIdx? (· = c)

/-- The substring from byte position `i` (exclusive of nothing). -/
def strFrom (s : String) (i : Nat) : String :=
  String.mk (s.data.drop i)

/-- The substring `s[i:j]`. -/
def strSlice (s : String) (i j : Nat) : String :=
  String.mk ((s.data.drop i).take (j - i))

mutual

/-- `inferExprType` (typechecker.go): the declared-type string of an
expression, or `""` when no rule applies. -/
def inferExprType (e : Expr) (ft : FT) (vt : VT) (sd : SD) : String :=
  match e with
  | .str _ => "string"
  | .int _ => "int"
  | .bool _ => "bool"
  | .ident name =>
    match alookup vt name with
    | some t => t
    | none =>
      if strContainsChar name '.' then
        let (base, field) := splitFirstDot name
        let viaStruct : Option String :=
          match alookup vt base with
          | some baseType =>
            match alookup sd baseType with
            | some fields => (fields.find? (fun p => p.1 = field)).map (·.2)
            | none => none
          | none => none
        match viaStruct with
        | some t => t
        | none =>
          -- "Optionally try an unqualified lookup" of the field name.
          match alookup vt field with
          | some t => t
          | none => ""
      else ""
  | .binary op l r =>
    let leftType := inferExprType l ft vt sd
    let rightType := inferExprType r ft vt sd
    match op with
    | .EQ | .NEQ | .LT | .LTE | .GT | .GTE | .AND | .OR => "bool"
    | .PLUS =>
      if leftType = "string" ∧ rightType = "string" then "string"
      else if leftType = "int" ∧ rightType = "int" then "int"
      else ""
    | .MINUS | .ASTERISK | .SLASH | .MODULUS =>
      if leftType = "int" ∧ rightType = "int" then "int" else ""
    | _ => ""
  | .call fnE _ =>
    match fnE with
    | .ident name =>
      match alookup goBuiltinsTC name with
      | some ret => ret
      | none =>
        let viaMethod : Option String :=
          if strContainsChar name '.' then
            let (base, m) := splitFirstDot name
            match alookup vt base with
            | some baseType => alookup ft (baseType ++ "." ++ m)
            | none => none
          else none
        match viaMethod with
        | some ret => ret
        | none =>
          match alookup ft name with
          | some ret => ret
          | none =>
            if name = "len" then "int"
            else if name = "input" then "string"
            else ""
    | _ => ""
  | .unary op _ =>
    match op with
    | .MINUS => "int"
    | .NOT => "bool"
    | _ => ""
  | .arr elems =>
    match elems with
    | [] => "unknown[]"
    | e0 :: rest =>
      let elemType := inferExprType e0 ft vt sd
      if elemsAllHaveType rest elemType ft vt sd then elemType ++ "[]"
      else ""
  | .index l _ =>
    let leftType := inferExprType l ft vt sd
    if isArrType leftType then leftType.dropRight 2
    else if strStartsWith leftType "map[" then
      match strIndexOfChar leftType ']' with
      | some cb =>
        if cb + 1 < leftType.length then strFrom leftType (cb + 1) else ""
      | none => ""
    else ""
  | .slice l _ _ =>
    let leftType := inferExprType l ft vt sd
    if isArrType leftType then leftType else ""
  | .structLit sname _ => sname
  | .mapLit kt vtyp _ => "map[" ++ kt ++ "]" ++ vtyp
  | .nilLit => ""
    -- NilLiteral has no case in the Go switch; the default returns "".

/-- Every further element of an array literal must infer to the type of
the first element. -/
def elemsAllHaveType (els : List Expr) (elemType : String)
    (ft : FT) (vt : VT) (sd : SD) : Bool :=
  match els with
  | [] => true
  | el :: more =>
    inferExprType el ft vt sd = elemType ∧ elemsAllHaveType more elemType ft vt sd

end

/-- The type checker's error taxonomy: one constructor per `Errorf`
site of typechecker.go (message phrasing and source positions are the
implementer's; the taxonomy is normative). -/
inductive Err where
  | initUndeclared (name : String)
  | letArrToAny (valType name : String)
  | letNonArrToAnyArr (valType name : String)
  | letMismatch (valType declType name : String)
  | mapLitDeclMismatch (expected declType name : String)
  | mapKeyMismatch (expected got : String)
  | mapValMismatch (expected got : String)
  | missingField (field structName : String)
  | unknownField (field structName : String)
  | exprUndeclared
  | logUndeclared
  | unknownReturnType (t fname : String)
  | returnValueFromVoid
  | mustReturnValue
  | returnMismatch (expected got : String)
  | arrIndexNotInt (got : String)
  | arrElemMismatch (valType elemType : String)
  | malformedMapType (t : String)
  | mapAssignKeyMismatch (expected got : String)
  | mapAssignValMismatch (got valueType : String)
  | assignTargetNotContainer
  | assignUndeclared (name : String)
  | assignUsesUndeclared (name : String)
  | assignArrToAny (valType name : String)
  | assignNonArrToAnyArr (valType name : String)
  | assignMismatch (valType expectedType name : String)
  | breakOutsideLoop
  | continueOutsideLoop
  | whileCondNotBool (got : String)
  | forCondNotBool (got : String)
  | methodArity (m : String) (expected got : Nat)
  | methodArgMismatch (i : Nat) (m expected got : String)
  | lenArity (got : Nat)
  | lenArgNotArray (got : String)
  | inputArity (got : Nat)
  | inputArgNotString (got : String)
  | unknownFunction (name : String)
  | fnArity (name : String) (expected got : Nat)
  | fnArgMismatch (i : Nat) (name expected got : String)
  deriving DecidableEq, Repr

/-- Positional argument type checking (1-based indices, as in the Go
error messages).  Called only after the arity check passed. -/
def argTypeErrs (mk : Nat → String → String → Err) (i : Nat) :
    List Expr → List String → FT → VT → SD → List Err
  | [], _, _, _, _ => []
  | _, [], _, _, _ => []
  | a :: as, p :: ps, ft, vt, sd =>
    (let argType := inferExprType a ft vt sd
     if argType ≠ p then [mk i p argType] else []) ++
      argTypeErrs mk (i + 1) as ps ft vt sd

/-- `checkCallExpr` (typechecker.go): arity and argument types against
the function, method or built-in signature.  Note: the `len` branch
reads `call.Arguments[0]` without first checking that an argument
exists — the embedding substitutes a `nil` literal there, where the Go
code would panic on `len()` with no arguments. -/
def checkCallExpr (fnE : Expr) (args : List Expr)
    (fd : FD) (ft : FT) (vt : VT) (sd : SD) : List Err :=
  match fnE with
  | .ident name =>
    if (alookup goBuiltinsTC name).isSome then []
    else
      let viaMethod : Option (String × FnStmt) :=
        if strContainsChar name '.' then
          let (base, m) := splitFirstDot name
          match alookup vt base with
          | some baseType =>
            let mfull := baseType ++ "." ++ m
            (alookup fd mfull).map (fun fn => (mfull, fn))
          | none => none
        else none
      match viaMethod with
      | some (mfull, fn) =>
        -- The receiver is prepended as the first argument.
        let args2 := Expr.ident (splitFirstDot name).1 :: args
        if args2.length ≠ fn.params.length then
          [.methodArity mfull fn.params.length args2.length]
        else
          argTypeErrs (fun i exp got => .methodArgMismatch i mfull exp got) 1
            args2 fn.paramTypes ft vt sd
      | none =>
        if name = "len" then
          (if args.length ≠ 1 then [.lenArity args.length] else []) ++
            (let argType := inferExprType (args.headD .nilLit) ft vt sd
             if argType.length < 3 ∨ ¬ strEndsWith argType "[]" then
               [.lenArgNotArray argType]
             else [])
        else if name = "input" then
          (if args.length > 1 then [.inputArity args.length] else []) ++
            (if args.length = 1 then
               let argType := inferExprType (args.headD .nilLit) ft vt sd
               if argType ≠ "string" then [.inputArgNotString argType] else []
             else [])
        else
          match alookup fd name with
          | none => [.unknownFunction name]
          | some fn =>
            if args.length ≠ fn.params.length then
              [.fnArity name fn.params.length args.length]
            else
              argTypeErrs (fun i exp got => .fnArgMismatch i name exp got) 1
                args fn.paramTypes ft vt sd
  | _ => []

/-- Registration of the function statements of a statement list into
the shared signature tables (the loop at the top of
`checkWithReturnType`, and pass 1 of `Check`). -/
def regFns (stmts : List Stmt) (ft : FT) (fd : FD) : FT × FD :=
  match stmts with
  | [] => (ft, fd)
  | .fnc n ps pts body rt vis rcv :: rest =>
    regFns rest (aset ft n rt) (aset fd n ⟨n, ps, pts, body, rt, vis, rcv⟩)
  | _ :: rest => regFns rest ft fd

/-- The map-literal and struct-literal extra checks of the `Let` case. -/
def letLiteralErrs (declType name : String) (value : Expr)
    (ft : FT) (vt : VT) (sd : SD) : List Err :=
  (match value with
   | .mapLit kt vtyp pairs =>
     let expectedType := "map[" ++ kt ++ "]" ++ vtyp
     (if declType ≠ expectedType then
        [.mapLitDeclMismatch expectedType declType name]
      else []) ++
       pairs.flatMap (fun kv =>
         (let keyType := inferExprType kv.1 ft vt sd
          if keyType ≠ kt then [.mapKeyMismatch kt keyType] else []) ++
         (let valType := inferExprType kv.2 ft vt sd
          if valType ≠ vtyp then [.mapValMismatch vtyp valType] else []))
   | _ => []) ++
  (match value with
   | .structLit sname fields =>
     match alookup sd sname with
     | some defFields =>
       defFields.flatMap (fun f =>
         if (fields.find? (fun p => p.1 = f.1)).isSome then []
         else [.missingField f.1 sname]) ++
       fields.flatMap (fun p =>
         if (defFields.find? (fun f => f.1 = p.1)).isSome then []
         else [.unknownField p.1 sname])
     | none => []   -- an unregistered struct name draws no error here
   | _ => [])

/-- The ordinary-identifier branch of the `AssignmentStatement` case:
the target must be declared; the value type must match, with the
`any`/`any[]` wildcard rules. -/
def assignIdentErrs (name : String) (value : Expr)
    (ft : FT) (vt : VT) (sd : SD) : List Err :=
  match alookup vt name with
  | none => [Err.assignUndeclared name]
  | some expectedType =>
    let valType := inferExprType value ft vt sd
    if valType = "" then [Err.assignUsesUndeclared name]
    else if expectedType = "any" then
      if isArrType valType then [Err.assignArrToAny valType name] else []
    else if expectedType = "any[]" then
      if ¬ isArrType valType then [Err.assignNonArrToAnyArr valType name] else []
    else if valType ≠ expectedType then
      [Err.assignMismatch valType expectedType name]
    else []

mutual

/-- One statement of the `checkWithReturnType` loop.  Returns the
accumulated errors together with the threaded function tables (Go
mutates them through shared maps, so nested registrations leak out)
and the variable-type environment (mutated in place at the same level;
loop and function bodies receive copies). -/
def checkStmt (s : Stmt) (crt : String) (ft : FT) (fd : FD) (vt : VT)
    (sd : SD) (inLoop : Bool) : List Err × FT × FD × VT :=
  match s with
  | .letS name ty value _ =>
    let valType := inferExprType value ft vt sd
    let errs1 := if valType = "" then [Err.initUndeclared name] else []
    let vt2 := aset vt name ty
    let errs2 :=
      if ty = "any" then
        if isArrType valType then [Err.letArrToAny valType name] else []
      else if ty = "any[]" then
        if ¬ isArrType valType then [Err.letNonArrToAnyArr valType name] else []
      else if valType ≠ ty then [Err.letMismatch valType ty name] else []
    (errs1 ++ errs2 ++ letLiteralErrs ty name value ft vt2 sd, ft, fd, vt2)
  | .exprS e =>
    let callErrs :=
      match e with
      | .call fnE args => checkCallExpr fnE args fd ft vt sd
      | _ => []
    let exprType := inferExprType e ft vt sd
    (callErrs ++ (if exprType = "" then [Err.exprUndeclared] else []), ft, fd, vt)
  | .logS v =>
    let exprType := inferExprType v ft vt sd
    ((if exprType = "" then [Err.logUndeclared] else []), ft, fd, vt)
  | .fnc n ps pts body rt _ _ =>
    let builtinRT := rt = "int" ∨ rt = "string" ∨ rt = "bool" ∨ rt = "void"
    let errs1 :=
      if builtinRT then []
      else
        match alookup sd rt with
        | some _ => []
        | none => [Err.unknownReturnType rt n]
    let funcVT := (ps.zip pts).foldl (fun acc p => aset acc p.1 p.2) vt
    let (ftB, fdB) := regFns body ft fd
    let (errsB, ft2, fd2, _) := checkStmtList body rt ftB fdB funcVT sd false
    (errs1 ++ errsB, ft2, fd2, vt)
  | .ret v =>
    if crt = "void" then
      (match v with
       | some e =>
         (match e with
          | .nilLit => ([], ft, fd, vt)
          | _ => ([Err.returnValueFromVoid], ft, fd, vt))
       | none => ([], ft, fd, vt))
    else
      (match v with
       | none => ([Err.mustReturnValue], ft, fd, vt)
       | some e =>
         let valType := inferExprType e ft vt sd
         (if valType ≠ crt then [Err.returnMismatch crt valType] else [],
          ft, fd, vt))
  | .assign name left value =>
    match left with
    | .ident t =>
      if strContainsChar t '.' then
        ([], ft, fd, vt)   -- "...field assignment logic..." is a stub in Go
      else
        (assignIdentErrs name value ft vt sd, ft, fd, vt)
    | .index l i =>
      let collectionType := inferExprType l ft vt sd
      let indexType := inferExprType i ft vt sd
      let valType := inferExprType value ft vt sd
      let errs :=
        if strEndsWith collectionType "[]" then
          let elemType := collectionType.dropRight 2
          (if indexType ≠ "int" then [Err.arrIndexNotInt indexType] else []) ++
          (if valType ≠ elemType then [Err.arrElemMismatch valType elemType] else [])
        else if strStartsWith collectionType "map[" then
          match strIndexOfChar collectionType ']' with
          | none => [Err.malformedMapType collectionType]
          | some cb =>
            let keyType := strSlice collectionType 4 cb
            let valueType := strFrom collectionType (cb + 1)
            (if indexType ≠ keyType then
               [Err.mapAssignKeyMismatch keyType indexType] else []) ++
            (if valType ≠ valueType then
               [Err.mapAssignValMismatch valType valueType] else [])
        else [Err.assignTargetNotContainer]
      (errs, ft, fd, vt)
    | _ => (assignIdentErrs name value ft vt sd, ft, fd, vt)
  | .breakS =>
    ((if inLoop then [] else [Err.breakOutsideLoop]), ft, fd, vt)
  | .continueS =>
    ((if inLoop then [] else [Err.continueOutsideLoop]), ft, fd, vt)
  | .whileS cond body =>
    let condType := inferExprType cond ft vt sd
    let errs1 := if condType ≠ "bool" then [Err.whileCondNotBool condType] else []
    let (ftB, fdB) := regFns body ft fd
    let (errsB, ft2, fd2, _) := checkStmtList body crt ftB fdB vt sd true
    (errs1 ++ errsB, ft2, fd2, vt)
  | .forS init cond post body =>
    -- Go checks init/post through checkWithReturnType on a singleton
    -- list, which is its registration pass over that one statement
    -- followed by checking it.
    let (e1, ft1, fd1, forVT) :=
      match init with
      | some i =>
        let (ftI, fdI) := regFns [i] ft fd
        checkStmt i crt ftI fdI vt sd false
      | none => ([], ft, fd, vt)
    let condType := inferExprType cond ft1 forVT sd
    let e2 := if condType ≠ "bool" then [Err.forCondNotBool condType] else []
    let (ftB, fdB) := regFns body ft1 fd1
    let (e3, ft2, fd2, _) := checkStmtList body crt ftB fdB forVT sd true
    let (e4, ft3, fd3, _) :=
      match post with
      | some p =>
        let (ftP, fdP) := regFns [p] ft2 fd2
        checkStmt p crt ftP fdP forVT sd false
      | none => ([], ft2, fd2, forVT)
    (e1 ++ e2 ++ e3 ++ e4, ft3, fd3, vt)
  | .ifS _ _ _ _ _ => ([], ft, fd, vt)
    -- checkWithReturnType has no IfStatement case: if conditions and
    -- bodies are not type-checked at all.
  | .structS _ _ => ([], ft, fd, vt)
  | .packageS _ => ([], ft, fd, vt)
  | .importS _ => ([], ft, fd, vt)
  | .cimport _ => ([], ft, fd, vt)

/-- The statement loop of `checkWithReturnType` (registration already
performed by the caller). -/
def checkStmtList (stmts : List Stmt) (crt : String) (ft : FT) (fd : FD)
    (vt : VT) (sd : SD) (inLoop : Bool) : List Err × FT × FD × VT :=
  match stmts with
  | [] => ([], ft, fd, vt)
  | s :: rest =>
    let (errs1, ft1, fd1, vt1) := checkStmt s crt ft fd vt sd inLoop
    let (errs2, ft2, fd2, vt2) := checkStmtList rest crt ft1 fd1 vt1 sd inLoop
    (errs1 ++ errs2, ft2, fd2, vt2)

end

/-- `checkWithReturnType`: register this level's function statements,
then check the statements in order. -/
def checkWithReturnType (stmts : List Stmt) (crt : String) (ft : FT)
    (fd : FD) (vt : VT) (sd : SD) (inLoop : Bool) :
    List Err × FT × FD × VT :=
  let (ft1, fd1) := regFns stmts ft fd
  checkStmtList stmts crt ft1 fd1 vt sd inLoop

/-- Pass 1 of `Check`: register functions, structs and global lets. -/
def registerTopLevel (stmts : List Stmt) (ft : FT) (fd : FD) (sd : SD)
    (gv : VT) : FT × FD × SD × VT :=
  match stmts with
  | [] => (ft, fd, sd, gv)
  | .fnc n ps pts body rt vis rcv :: rest =>
    registerTopLevel rest (aset ft n rt)
      (aset fd n ⟨n, ps, pts, body, rt, vis, rcv⟩) sd gv
  | .structS n fields :: rest =>
    registerTopLevel rest ft fd (aset sd n fields) gv
  | .letS n ty _ _ :: rest =>
    registerTopLevel rest ft fd sd (aset gv n ty)
  | _ :: rest => registerTopLevel rest ft fd sd gv

/-- `Check`: the type checker's entry point.  Two passes; the result is
the collected error list. -/
def Check (stmts : List Stmt) : List Err :=
  let (ft, fd, sd, gv) := registerTopLevel stmts [] [] [] []
  (checkWithReturnType stmts "" ft fd gv sd false).1

/-- Result extractors for concrete runs: the value of an expression. -/
def evalValue (B : BuiltinReg) (fuel : Nat) (e : Expr) (st : St) :
    Option Value :=
  match evalExprF B fuel e st with
  | .ok (v, _) => some v
  | _ => none

/-- The value together with everything printed. -/
def evalValOut (B : BuiltinReg) (fuel : Nat) (e : Expr) (st : St) :
    Option (Value × List Value) :=
  match evalExprF B fuel e st with
  | .ok (v, st1) => some (v, st1.out)
  | _ => none

/-- The heap after evaluating an expression. -/
def evalHeapOf (B : BuiltinReg) (fuel : Nat) (e : Expr) (st : St) :
    Option (List HObj) :=
  match evalExprF B fuel e st with
  | .ok (_, st1) => some st1.heap
  | _ => none

/-- Everything a whole program prints. -/
def runOut (B : BuiltinReg) (fuel : Nat) (stmts : List Stmt) :
    Option (List Value) :=
  match runMain B fuel stmts with
  | .ok st => some st.out
  | _ => none

/-- Scenario 5 of the specification (section 8): a for loop over
`i = 0..9` whose body breaks at `i == 5`, continues at `i == 2`, and
otherwise accumulates `s >> s + i`, then logs `s`. -/
def scenario5 : List Stmt :=
  [ .fnc "main" [] []
      [ .letS "s" "int" (.int 0) "",
        .forS (some (.letS "i" "int" (.int 0) ""))
              (.binary .LT (.ident "i") (.int 10))
              (some (.assign "i" (.ident "i") (.binary .PLUS (.ident "i") (.int 1))))
              [ .ifS (.binary .EQ (.ident "i") (.int 5)) [.breakS] [] [] [],
                .ifS (.binary .EQ (.ident "i") (.int 2)) [.continueS] [] [] [],
                .assign "s" (.ident "s") (.binary .PLUS (.ident "s") (.ident "i")) ],
        .logS (.ident "s") ] "void" "" "" ]

/-- A function whose body returns 1 from inside an if statement and 2
at the top level afterwards. -/
def nestedRetFn : FnStmt :=
  ⟨"g", [], [],
   [ .ifS (.bool true) [.ret (some (.int 1))] [] [] [],
     .ret (some (.int 2)) ], "int", "", ""⟩

/-- A state whose global frame binds `g` to `nestedRetFn`. -/
def stNestedRet : St :=
  { env := [[("g", .vFunc nestedRetFn)]], heap := [], out := [], stdin := [] }

/-- A void function that logs the integer 1 (an observable side
effect). -/
def logOneFn : FnStmt := ⟨"f", [], [], [.logS (.int 1)], "void", "", ""⟩

/-- A state whose global frame binds `f` to `logOneFn`. -/
def stLogOne : St :=
  { env := [[("f", .vFunc logOneFn)]], heap := [], out := [], stdin := [] }

/-- A non-`pub` (private) module function. -/
def privFn : Stmt :=
  .fnc "secret" ["a"] ["int"] [.ret (some (.ident "a"))] "int" "" ""

/-- A `pub` module-level let. -/
def pubLet : Stmt := .letS "x" "int" (.int 5) "pub"

/-- A main function that calls the private imported function through
its module-qualified name. -/
def mainCallsPriv : Stmt :=
  .fnc "main" [] [] [.exprS (.call (.ident "mathx.secret") [.int 2])] "void" "" ""

/-- The combined program the loader produces for an import of a module
`mathx` containing `privFn` and `pubLet`, followed by the entry file's
main function. -/
def progC3 : List Stmt :=
  prefixImported "mathx" [privFn, pubLet] ++ [mainCallsPriv]

/-- `let b bool >> true < false` — an ordering comparison of two
booleans. -/
def boolCmpProg : List Stmt :=
  [.letS "b" "bool" (.binary .LT (.bool true) (.bool false)) ""]

/-- `let b bool >> 1 < 2` — an ordering comparison of two ints. -/
def intCmpProg : List Stmt :=
  [.letS "b" "bool" (.binary .LT (.int 1) (.int 2)) ""]

/-- A program whose function `g` reads a name that is local to the
caller `main` and not a global: `x` must be unresolved inside `g`. -/
def progCallerLocal : List Stmt :=
  [ .fnc "g" [] [] [.logS (.ident "x")] "void" "" "",
    .fnc "main" [] []
      [ .letS "x" "int" (.int 7) "",
        .exprS (.call (.ident "g") []) ] "void" "" "" ]

/-- The per-statement shape of the loader's import splice: a function
statement becomes the renamed copy followed by the original; everything
else is copied through. -/
def renameDup (moduleName : String) (s : Stmt) : List Stmt :=
  match s with
  | .fnc n ps pts body rt vis rcv =>
    [.fnc (moduleName ++ "." ++ n) ps pts body rt vis rcv,
     .fnc n ps pts body rt vis rcv]
  | s => [s]

/-- C1: the spec expects break/continue signals to propagate from a
nested if body to the enclosing loop, and scenario 5 (section 8) to log
8.  The evaluator's `IfStatement` case discards the result of
`Eval(stmt.IfBody, env)`, so the `break` at `i == 5` and the `continue`
at `i == 2` are swallowed and the program — which the type checker
accepts — logs 45 = 0+1+...+9 instead of the specified 8. -/
theorem c1_break_continue_swallowed_by_if :
    runOut emptyReg 100 scenario5 = some [Value.vInt 45] ∧
    Check scenario5 = [] ∧
    [Value.vInt 45] ≠ [Value.vInt 8] :=
  ⟨rfl, rfl, by simp⟩

/-- C2 counterexample: the claim says a `return` anywhere in the
callee's body (including nested in an if) yields the call's result, so
calling `g` — whose body is `if true { return 1 }; return 2` — would
give 1.  The interpreter gives 2: `Eval` has no `ReturnStatement`
case, so the nested return is a no-op. -/
theorem c2_nested_return_skipped :
    evalValue emptyReg 50 (.call (.ident "g") []) stNestedRet = some (.vInt 2) ∧
    some (Value.vInt 2) ≠ some (Value.vInt 1) :=
  ⟨rfl, by simp⟩

/-- C2 amended: only a `return` that is a direct (top-level) statement
of the callee's body list is intercepted by `evalFunctionBody` and
yields the call's result, with the remaining statements not executed;
a `return` reached through ordinary statement evaluation (nested in an
if body or loop) does nothing at all — its value expression is not
even evaluated. -/
theorem c2_top_level_return_only :
    (∀ (B : BuiltinReg) (fuel : Nat) (e : Expr) (rest : List Stmt) (st : St),
       evalFunctionBody B (fuel + 1) (.ret (some e) :: rest) st = evalExprF B fuel e st) ∧
    (∀ (B : BuiltinReg) (fuel : Nat) (v : Option Expr) (st : St),
       evalStmt B (fuel + 1) (.ret v) st = .ok (.none, st)) :=
  ⟨fun _ _ _ _ _ => rfl, fun _ _ _ _ => rfl⟩

/-- C3 counterexample: the loader emits a `mathx.`-renamed duplicate of
the non-`pub` function `secret` (the claim says only `pub`
declarations are duplicated), emits no renamed duplicate of the `pub`
let `x`, and the program calling `mathx.secret` passes the type
checker with no diagnostics (the claim expects an "unknown function"
error). -/
theorem c3_private_function_renamed :
    prefixImported "mathx" [privFn, pubLet] =
      [.fnc "mathx.secret" ["a"] ["int"] [.ret (some (.ident "a"))] "int" "" "",
       .fnc "secret" ["a"] ["int"] [.ret (some (.ident "a"))] "int" "" "",
       .letS "x" "int" (.int 5) "pub"] ∧
    Stmt.letS "mathx.x" "int" (.int 5) "pub" ∉ prefixImported "mathx" [privFn, pubLet] ∧
    Check progC3 = [] :=
  ⟨rfl, by simp [prefixImported, privFn, pubLet], rfl⟩

/-- The loader's splice equals a flat map of `renameDup` over the
imported statements. -/
theorem prefixImported_eq_flatMap (m : String) (stmts : List Stmt) :
    prefixImported m stmts = stmts.flatMap (renameDup m) := by
  induction stmts with
  | nil => rfl
  | cons s rest ih =>
    cases s <;> simp [prefixImported, renameDup, List.flatMap, ih]

/-- C3 amended: the loader emits the `MODULE.NAME` duplicate for every
imported top-level function regardless of visibility (keeping the
original too), and for no other statement kind: non-function
statements — `pub` lets included — pass through exactly. -/
theorem c3_all_functions_renamed (m : String) (stmts : List Stmt) :
    (∀ n ps pts body rt vis rcv,
       Stmt.fnc n ps pts body rt vis rcv ∈ stmts →
         Stmt.fnc (m ++ "." ++ n) ps pts body rt vis rcv ∈ prefixImported m stmts ∧
         Stmt.fnc n ps pts body rt vis rcv ∈ prefixImported m stmts) ∧
    (∀ s : Stmt, isFnc s = false → (s ∈ prefixImported m stmts ↔ s ∈ stmts)) := by
  rw [prefixImported_eq_flatMap]
  constructor
  · intro n ps pts body rt vis rcv h
    constructor
    · exact List.mem_flatMap.mpr ⟨_, h, by simp [renameDup]⟩
    · exact List.mem_flatMap.mpr ⟨_, h, by simp [renameDup]⟩
  · intro s hs
    constructor
    · intro h
      obtain ⟨t, ht, hst⟩ := List.mem_flatMap.mp h
      cases t with
      | fnc n ps pts body rt vis rcv =>
        simp [renameDup] at hst
        rcases hst with rfl | rfl <;> simp [isFnc] at hs
      | _ => simp_all [renameDup]
    · intro h
      exact List.mem_flatMap.mpr ⟨s, h, by cases s <;> simp [renameDup]⟩

theorem c3_all_functions_renamed_witness :
    Stmt.fnc ("mathx" ++ "." ++ "secret") ["a"] ["int"] [.ret (some (.ident "a"))] "int" "" "" ∈
      prefixImported "mathx" [privFn, pubLet] ∧
    (Stmt.letS "x" "int" (.int 5) "pub" ∈ prefixImported "mathx" [privFn, pubLet] ↔
      Stmt.letS "x" "int" (.int 5) "pub" ∈ [privFn, pubLet]) :=
  ⟨((c3_all_functions_renamed "mathx" [privFn, pubLet]).1 "secret" ["a"] ["int"]
      [.ret (some (.ident "a"))] "int" "" "" (by simp [privFn])).1,
   (c3_all_functions_renamed "mathx" [privFn, pubLet]).2 _ rfl⟩

/-- C4 counterexample: with `f` a function that logs 1, evaluating
`false && f()` produces the value `false` but also the log output of
`f` — the second operand was evaluated although the first is not
truthy; likewise `true || f()`.  The claim says the second operand is
not evaluated, i.e. the output would stay empty. -/
theorem c4_operands_always_evaluated :
    evalValOut emptyReg 20 (.binary .AND (.bool false) (.call (.ident "f") [])) stLogOne =
      some (.vBool false, [.vInt 1]) ∧
    evalValOut emptyReg 20 (.binary .OR (.bool true) (.call (.ident "f") [])) stLogOne =
      some (.vBool true, [.vInt 1]) ∧
    ([Value.vInt 1] : List Value) ≠ ([] : List Value) :=
  ⟨rfl, rfl, by simp⟩

/-- C4 amended: `&&` and `||` evaluate both operands unconditionally
(the `BinaryExpression` case evaluates left and right before
dispatching on the operator); the resulting value is the combination
of the operands' truthiness — so values match short-circuit semantics
but side effects of the second operand always occur.  Truthiness is as
the claim states: a bool as itself, an int iff nonzero, a string iff
nonempty, nil false, other values true (`isTruthy`). -/
theorem c4_logical_ops_eager :
    ∀ (B : BuiltinReg) (fuel : Nat) (e1 e2 : Expr) (st : St),
      evalExprF B (fuel + 1) (.binary .AND e1 e2) st =
        (evalExprF B fuel e1 st).bind (fun (lv, st1) =>
          (evalExprF B fuel e2 st1).bind (fun (rv, st2) =>
            .ok (.vBool (isTruthy lv && isTruthy rv), st2))) ∧
      evalExprF B (fuel + 1) (.binary .OR e1 e2) st =
        (evalExprF B fuel e1 st).bind (fun (lv, st1) =>
          (evalExprF B fuel e2 st1).bind (fun (rv, st2) =>
            .ok (.vBool (isTruthy lv || isTruthy rv), st2))) :=
  fun _ _ _ _ _ => ⟨rfl, rfl⟩

/-- C5 counterexample: `let b bool >> true < false` — an ordering
comparison of two booleans — draws no diagnostic at all from the type
checker, while the claim says a type error is reported. -/
theorem c5_bool_ordering_accepted :
    Check boolCmpProg = [] ∧
    inferExprType (.binary .LT (.bool true) (.bool false)) [] [] [] = "bool" :=
  ⟨rfl, rfl⟩

/-- C5 amended: the type checker never examines the operand types of
`<`, `<=`, `>`, `>=`: the expression is inferred to have type `bool`
whatever the operands are, and no error is reported — for `int,int`
operands (per the claim) but equally for `bool,bool` ones. -/
theorem c5_orderings_not_operand_checked :
    (∀ (e1 e2 : Expr) (ft : FT) (vt : VT) (sd : SD),
       inferExprType (.binary .LT e1 e2) ft vt sd = "bool" ∧
       inferExprType (.binary .LTE e1 e2) ft vt sd = "bool" ∧
       inferExprType (.binary .GT e1 e2) ft vt sd = "bool" ∧
       inferExprType (.binary .GTE e1 e2) ft vt sd = "bool") ∧
    Check intCmpProg = [] ∧ Check boolCmpProg = [] :=
  ⟨fun _ _ _ _ _ => ⟨rfl, rfl, rfl, rfl⟩, rfl, rfl⟩

/-- C6: slicing is not total.  Evaluating `[1,2,3][:-1]` resolves
`end = -1`, the `start > end` rule drags `start` down to `-1`, and the
Go slice operation `arrSlice[-1:-1]` panics (slice bounds out of
range), aborting the interpreter — against the claim's totality and
the spec's never-abort runtime policy.  For non-negative bounds the
clamping behaves as claimed: `[1,2,3][1:5]` gives `[2,3]` and
`[1,2,3][-2:2]` gives `[1,2]`. -/
theorem c6_slice_negative_end_aborts :
    evalExprF emptyReg 10 (.slice (.arr [.int 1, .int 2, .int 3]) none (some (.int (-1)))) initSt = .abort ∧
    evalHeapOf emptyReg 10 (.slice (.arr [.int 1, .int 2, .int 3]) (some (.int 1)) (some (.int 5))) initSt =
      some [.arrO [.vInt 1, .vInt 2, .vInt 3], .arrO [.vInt 2, .vInt 3]] ∧
    evalHeapOf emptyReg 10 (.slice (.arr [.int 1, .int 2, .int 3]) (some (.int (-2))) (some (.int 2))) initSt =
      some [.arrO [.vInt 1, .vInt 2, .vInt 3], .arrO [.vInt 1, .vInt 2]] :=
  ⟨rfl, rfl, rfl⟩

/-- C7: `5 / 0` and `5 % 0` are Go runtime panics (integer divide by
zero) that abort the interpreter, against the claim that division and
modulus always return an int or nil.  The nil-sentinel policy does
hold for operand type mismatches (`true / 2` is nil), and ordinary
division returns the int (`7 / 2 = 3`). -/
theorem c7_division_by_zero_aborts :
    evalExprF emptyReg 10 (.binary .SLASH (.int 5) (.int 0)) initSt = .abort ∧
    evalExprF emptyReg 10 (.binary .MODULUS (.int 5) (.int 0)) initSt = .abort ∧
    evalValue emptyReg 10 (.binary .SLASH (.int 7) (.int 2)) initSt = some (.vInt 3) ∧
    evalValue emptyReg 10 (.binary .SLASH (.bool true) (.int 2)) initSt = some .vNil :=
  ⟨rfl, rfl, rfl, rfl⟩

/-- C8 counterexample: the claim says every case-variant of `void[]`
maps to `TYPE`; the keyword switch has no `void[]` label, so
`lookupIdent` returns `IDENT` for it. -/
theorem c8_void_array_is_ident :
    lookupIdent "void[]" = .IDENT ∧ lookupIdent "VOID[]" = .IDENT ∧
    TokenType.IDENT ≠ TokenType.TYPE :=
  ⟨rfl, rfl, by decide⟩

/-- An identifier whose lower-cased text is not a label of the keyword
switch falls through to `IDENT`. -/
theorem lookupIdentKeyword_of_not_mem (l : String) (h : l ∉ toxKeywordTable) :
    lookupIdentKeyword l = .IDENT := by
  simp only [toxKeywordTable, List.mem_cons, List.not_mem_nil, or_false, not_or] at h
  obtain ⟨h1, h2, h3, h4, h5, h6, h7, h8, h9, h10, h11, h12, h13, h14, h15, h16, h17, h18, h19, h20⟩ := h
  unfold lookupIdentKeyword
  rw [if_neg h1, if_neg h2, if_neg h3,
      if_neg (by simp [h4, h5, h6, h7, h8, h9, h10]),
      if_neg (by simp [h11, h12]),
      if_neg h13, if_neg h14, if_neg h15, if_neg h16, if_neg h17,
      if_neg h18, if_neg h19, if_neg h20]

/-- C8 amended: case-insensitively, `string`, `int`, `bool`, `void`
and the array forms `int[]`, `string[]`, `bool[]` map to `TYPE`
(`void[]` does not — it maps to `IDENT`); `true`/`false` map to
`BOOL`; an identifier not in the keyword table maps to `IDENT`. -/
theorem c8_keyword_table_shape :
    (∀ s : String,
       strToLower s ∈ (["string", "int", "bool", "void", "int[]", "string[]", "bool[]"] : List String) →
       lookupIdent s = .TYPE) ∧
    (∀ s : String, strToLower s ∈ (["true", "false"] : List String) → lookupIdent s = .BOOL) ∧
    lookupIdent "void[]" = .IDENT ∧
    (∀ s : String, strToLower s ∉ toxKeywordTable → lookupIdent s = .IDENT) := by
  refine ⟨?_, ?_, rfl, ?_⟩
  · intro s h
    simp only [List.mem_cons, List.not_mem_nil, or_false] at h
    unfold lookupIdent
    rcases h with h | h | h | h | h | h | h <;> rw [h] <;> rfl
  · intro s h
    simp only [List.mem_cons, List.not_mem_nil, or_false] at h
    unfold lookupIdent
    rcases h with h | h <;> rw [h] <;> rfl
  · intro s h
    exact lookupIdentKeyword_of_not_mem _ h

theorem c8_keyword_table_shape_witness :
    lookupIdent "STRING[]" = .TYPE ∧ lookupIdent "False" = .BOOL ∧
    lookupIdent "hello" = .IDENT :=
  ⟨c8_keyword_table_shape.1 "STRING[]" (by decide),
   c8_keyword_table_shape.2.1 "False" (by decide),
   c8_keyword_table_shape.2.2.2 "hello" (by decide)⟩

/-- C9: indexing an array value with an in-range int index returns the
element at that index; an out-of-range index (negative or beyond the
length) or a non-int index yields `nil`, and no outcome aborts
evaluation. -/
theorem c9_array_indexing (heap : List HObj) (a : Nat) (elems : List Value)
    (i : Int) (idx : Value) (ha : heapGet heap a = some (.arrO elems)) :
    (0 ≤ i → i < (elems.length : Int) →
       ∃ v, elems.get? i.toNat = some v ∧
         indexValue heap (.vArrRef a) (.vInt i) = .ok v) ∧
    (i < 0 ∨ (elems.length : Int) ≤ i →
       indexValue heap (.vArrRef a) (.vInt i) = .ok .vNil) ∧
    ((∀ n : Int, idx ≠ .vInt n) → indexValue heap (.vArrRef a) idx = .ok .vNil) := by
  refine ⟨?_, ?_, ?_⟩
  · intro h0 hlt
    have hn : i.toNat < elems.length := by omega
    refine ⟨elems.get ⟨i.toNat, hn⟩, List.get?_eq_get hn, ?_⟩
    simp only [indexValue]
    rw [ha]
    simp only [if_pos (And.intro h0 hlt)]
    simp [List.getD_eq_getElem?_getD, List.getElem?_eq_getElem hn]
  · intro h
    simp only [indexValue]
    rw [ha]
    have hno : ¬ (0 ≤ i ∧ i < (elems.length : Int)) := by omega
    simp [hno]
  · intro h
    cases idx <;>
      first
        | exact absurd rfl (h _)
        | (simp only [indexValue]; rw [ha])

theorem c9_array_indexing_witness :
    (∃ v, [Value.vInt 10, Value.vInt 20].get? (Int.toNat 1) = some v ∧
       indexValue [HObj.arrO [Value.vInt 10, Value.vInt 20]] (.vArrRef 0) (.vInt 1) = .ok v) ∧
    indexValue [HObj.arrO [Value.vInt 10, Value.vInt 20]] (.vArrRef 0) (.vInt 5) = .ok .vNil ∧
    indexValue [HObj.arrO [Value.vInt 10, Value.vInt 20]] (.vArrRef 0) (.vStr "k") = .ok .vNil :=
  ⟨(c9_array_indexing [HObj.arrO [Value.vInt 10, Value.vInt 20]] 0
      [Value.vInt 10, Value.vInt 20] 1 (.vStr "k") rfl).1 (by decide) (by decide),
   (c9_array_indexing [HObj.arrO [Value.vInt 10, Value.vInt 20]] 0
      [Value.vInt 10, Value.vInt 20] 5 (.vStr "k") rfl).2.1 (by decide),
   (c9_array_indexing [HObj.arrO [Value.vInt 10, Value.vInt 20]] 0
      [Value.vInt 10, Value.vInt 20] 5 (.vStr "k") rfl).2.2
      (fun n h => Value.noConfusion h)⟩

/-- A name bound by no parameter is resolved past the parameter
bindings of a call frame. -/
theorem frameGet_bindParams_of_not_mem (ps : List String) (args : List Value)
    (f : Frame) (name : String) (h : name ∉ ps) :
    frameGet (bindParams ps args f) name = frameGet f name := by
  induction ps generalizing args f with
  | nil => rfl
  | cons p ps ih =>
    cases args with
    | nil => rfl
    | cons a args =>
      have hp : name ≠ p := fun e => h (e ▸ List.mem_cons_self p ps)
      have hps : name ∉ ps := fun hm => h (List.mem_cons_of_mem _ hm)
      show frameGet (bindParams ps args (frameSet f p a)) name = _
      rw [ih args (frameSet f p a) hps]
      simp [frameSet, frameGet, Ne.symm hp]

/-- C10: a call's fresh frame is enclosed over the outermost (global)
frame, not the caller's frame: the call chain is exactly the parameter
frame followed by the global frame; parameter bindings are visible in
the body; a caller-local name that is neither parameter-bound nor
global is unresolved in the body (a concrete run logs the evaluator's
unresolved-variable value for it); and a method call binds the
receiver to `this` in the fresh frame (unless a parameter shadows
it). -/
theorem c10_fresh_frame_over_global (env : Env) (ps : List String)
    (args : List Value) (recv : Value) (name : String) (w : Value) :
    mkCallEnv env (bindParams ps args []) =
      [bindParams ps args [], globalFrameOf env] ∧
    (∀ v, frameGet (bindParams ps args []) name = some v →
       envGet (mkCallEnv env (bindParams ps args [])) name = some v) ∧
    (envGet env name = some w →
     frameGet (bindParams ps args []) name = none →
     frameGet (globalFrameOf env) name = none →
       envGet (mkCallEnv env (bindParams ps args [])) name = none) ∧
    ("this" ∉ ps →
       envGet (mkCallEnv env (bindParams ps args [("this", recv)])) "this" = some recv) ∧
    runOut emptyReg 100 progCallerLocal = some [.vStr (errVarMsg "x")] := by
  refine ⟨rfl, ?_, ?_, ?_, rfl⟩
  · intro v hv
    simp [mkCallEnv, envGet, hv]
  · intro _ h1 h2
    simp [mkCallEnv, envGet, h1, h2]
  · intro h
    have hbp := frameGet_bindParams_of_not_mem ps args [("this", recv)] "this" h
    simp [mkCallEnv, envGet, hbp, frameGet]

theorem c10_fresh_frame_over_global_witness :
    envGet (mkCallEnv [[("loc", Value.vInt 1)], [("glob", Value.vInt 2)]]
        (bindParams ["p"] [Value.vInt 9] [])) "loc" = none ∧
    envGet (mkCallEnv [[("loc", Value.vInt 1)], [("glob", Value.vInt 2)]]
        (bindParams ["p"] [Value.vInt 9] [("this", Value.vStr "r")])) "this" =
      some (Value.vStr "r") :=
  ⟨(c10_fresh_frame_over_global [[("loc", Value.vInt 1)], [("glob", Value.vInt 2)]]
      ["p"] [Value.vInt 9] (Value.vStr "r") "loc" (Value.vInt 1)).2.2.1 rfl rfl rfl,
   (c10_fresh_frame_over_global [[("loc", Value.vInt 1)], [("glob", Value.vInt 2)]]
      ["p"] [Value.vInt 9] (Value.vStr "r") "loc" (Value.vInt 1)).2.2.2.1 (by decide)⟩
